import Mathlib

/-!
Shallow embedding of the core logic of the `syncb` bidirectional
synchronization scripts (the two iterations `src/syncb.py` and
`src/python/syncb.py`): the lock manager, the rsync option builder, the
symlink metadata codec, and the per-item orchestration loop, together with
theorems settling the specification claims.

Strings are modelled as `List Char`; Python string methods (`replace`,
`split`, `join`, `startswith`, substring test) are reimplemented faithfully
below.  Filesystem state is modelled explicitly (an association list from
paths to entries) and filesystem accesses performed by the orchestrator are
recorded as an explicit effect trace.
-/

namespace Syncb

/-- Python substring test `sub in s` on character lists. -/
def hasSubstr (sub : List Char) : List Char → Bool
  | [] => sub.isEmpty
  | c :: cs => sub.isPrefixOf (c :: cs) || hasSubstr sub cs

/-- Python `s.split(sep)` for a one-character separator: always returns at
least one (possibly empty) field. -/
def splitOnChar (sep : Char) : List Char → List (List Char)
  | [] => [[]]
  | c :: cs =>
    if c = sep then [] :: splitOnChar sep cs
    else (c :: (splitOnChar sep cs).headI) :: (splitOnChar sep cs).tail

/-- Python `sep.join(fields)` for a one-character separator. -/
def joinChar (sep : Char) : List (List Char) → List Char
  | [] => []
  | [w] => w
  | w :: ws => w ++ sep :: joinChar sep ws

/-- Python `s.replace(old, new, 1)`: replace the first occurrence of `old`
(scanning left to right) by `new`. -/
def replaceFirst (old new : List Char) : List Char → List Char
  | [] => if old.isPrefixOf [] then new else []
  | c :: cs =>
    if old.isPrefixOf (c :: cs) then new ++ (c :: cs).drop old.length
    else c :: replaceFirst old new cs

/-- Fuel-driven worker for `pyReplaceAll`; the fuel is the length of the
scanned string, which suffices because every step consumes at least one
character. -/
def replaceAllAux (old new : List Char) : Nat → List Char → List Char
  | _, [] => []
  | 0, s => s
  | fuel + 1, c :: cs =>
    if old.isPrefixOf (c :: cs) ∧ old ≠ [] then
      new ++ replaceAllAux old new fuel (cs.drop (old.length - 1))
    else c :: replaceAllAux old new fuel cs

/-- Python `s.replace(old, new)` (all occurrences, non-overlapping, left to
right) for a non-empty `old` — the scripts only ever call it with the literal
`$USERNAME`. -/
def pyReplaceAll (old new s : List Char) : List Char :=
  replaceAllAux old new s.length s

/-- Python `pathlib` path join `a / b`: an absolute right operand replaces
the left operand entirely. -/
def pathJoin (a b : List Char) : List Char :=
  match b with
  | '/' :: _ => b
  | _ => a ++ '/' :: b

/-- Python `pathlib` `Path(p).parent`: the path with its last component
removed. -/
def parentPath (p : List Char) : List Char :=
  match (splitOnChar '/' p).dropLast with
  | [] => ['.']
  | [[]] => ['/']
  | comps => joinChar '/' comps

/-- Literal `$USERNAME` used by the placeholder rewrites. -/
def usernameVar : List Char := "$USERNAME".toList

/-- Portable-target home placeholder `/home/$USERNAME` written into the
symlink metadata file. -/
def homePlaceholder : List Char := "/home/$USERNAME".toList

/-- Literal `/home/` tested by `registrar_enlace`'s generic home rule. -/
def homeDirLead : List Char := "/home/".toList

/-! ## Lock manager (`establecer_lock` / `eliminar_lock`, src/syncb.py) -/

/-- Contents of the lock-token file as seen by a reader: either a parsed
JSON record (owner pid and acquisition timestamp) or an unreadable/corrupt
file (`json.JSONDecodeError` / `IOError` on read). -/
inductive LockContent where
  | parsed (pid : Nat) (timestamp : Int)
  | corrupt
deriving DecidableEq

/-- Ambient data of a lock operation: the current process id, the clock,
the configured stale threshold `LOCK_TIMEOUT`, and the liveness oracle
realised by `os.kill(pid, 0)`. -/
structure LockEnv where
  selfPid : Nat
  now : Int
  lockTimeout : Int
  alive : Nat → Bool

/-- State of the well-known lock location: `none` when no token file
exists. -/
structure LockState where
  lockFile : Option LockContent
deriving DecidableEq

/-- Lock acquisition `establecer_lock` (src/syncb.py lines 899-948).
Returns (acquired?, owner pid surfaced in the already-locked diagnostic,
resulting state).  An existing token older than the timeout, with a dead
owner, or unreadable is discarded and a fresh token is written; a fresh
token with a live owner makes acquisition fail without touching the token.
The model assumes the final token write succeeds. -/
def establecer_lock (env : LockEnv) (st : LockState) :
    Bool × Option Nat × LockState :=
  match st.lockFile with
  | some (.parsed pid ts) =>
    if env.now - ts > env.lockTimeout then
      (true, none, ⟨some (.parsed env.selfPid env.now)⟩)
    else if env.alive pid then
      (false, some pid, st)
    else
      (true, none, ⟨some (.parsed env.selfPid env.now)⟩)
  | some .corrupt => (true, none, ⟨some (.parsed env.selfPid env.now)⟩)
  | none => (true, none, ⟨some (.parsed env.selfPid env.now)⟩)

/-- Lock release `eliminar_lock` (src/syncb.py lines 950-963): delete the
token when its recorded pid equals the current pid; on a read/parse failure
the code deletes the token anyway ("Lock eliminado (forzado)"). -/
def eliminar_lock (selfPid : Nat) (st : LockState) : LockState :=
  match st.lockFile with
  | none => st
  | some (.parsed pid _) => if pid = selfPid then ⟨none⟩ else st
  | some .corrupt => ⟨none⟩

/-- State seen by the src/python/syncb.py lock release: the token file plus
the in-process `lock_acquired` flag its `establecer_lock` sets. -/
structure PyLockState where
  lockFile : Option LockContent
  lockAcquired : Bool
deriving DecidableEq

/-- Rendered first line `PID: <n>` of the token written by the
src/python/syncb.py `establecer_lock`. -/
def pidLine (pid : Nat) : List Char :=
  "PID: ".toList ++ (Nat.repr pid).toList

/-- Lock release `eliminar_lock` (src/python/syncb.py lines 579-593): acts
only when this run acquired the lock; reads the token's first line and
deletes the token only when the current pid's rendering occurs in it
(Python's `in`, a substring test); an `OSError` while reading is swallowed
(`pass`) and the token is left untouched. -/
def eliminar_lock_py (selfPid : Nat) (st : PyLockState) : PyLockState :=
  if st.lockAcquired then
    match st.lockFile with
    | none => st
    | some .corrupt => st
    | some (.parsed pid _) =>
      if hasSubstr (pidLine selfPid) (pidLine pid) then ⟨none, false⟩
      else st
  else st

/-! ## Rsync option builder (`construir_opciones_rsync`, src/syncb.py) -/

/-- Boolean flags consumed by `construir_opciones_rsync`. -/
structure RsyncFlags where
  overwrite : Bool
  dryRun : Bool
  delete : Bool
  useChecksum : Bool
deriving DecidableEq

/-- Option literal `--update`. -/
def updateL : List Char := "--update".toList

/-- Option literal `--dry-run`. -/
def dryRunL : List Char := "--dry-run".toList

/-- Option literal `--delete-delay`. -/
def deleteDelayL : List Char := "--delete-delay".toList

/-- Option literal `--checksum`. -/
def checksumL : List Char := "--checksum".toList

/-- Leading characters of every exclude option. -/
def excludeLead : List Char := "--exclude=".toList

/-- Leading characters of the bandwidth-limit option. -/
def bwLead : List Char := "--bwlimit=".toList

/-- Fixed leading options of every main-pass rsync invocation
(src/syncb.py lines 967-975). -/
def baseOpts : List (List Char) :=
  ["--recursive".toList, "--verbose".toList, "--times".toList,
   "--progress".toList, "--whole-file".toList, "--no-links".toList,
   "--itemize-changes".toList]

/-- Render one `--exclude=<pattern>` option. -/
def excludeOpt (patron : List Char) : List Char := excludeLead ++ patron

/-- Optional `--bwlimit=<n>` segment; Python truthiness makes both `None`
and `0` produce nothing. -/
def bwSegment : Option Nat → List (List Char)
  | none => []
  | some b => if b = 0 then [] else [bwLead ++ (Nat.repr b).toList]

/-- `get_exclusiones` (src/syncb.py lines 608-612): configuration patterns
first, then CLI patterns, in their given order. -/
def get_exclusiones (cfg cli : List (List Char)) : List (List Char) :=
  cfg ++ cli

/-- `construir_opciones_rsync` (src/syncb.py lines 965-997): the ordered
option list for one main-pass rsync invocation. -/
def construir_opciones_rsync (f : RsyncFlags) (bw : Option Nat)
    (cfg cli : List (List Char)) : List (List Char) :=
  baseOpts
    ++ (if f.overwrite then [] else [updateL])
    ++ (if f.dryRun then [dryRunL] else [])
    ++ (if f.delete then [deleteDelayL] else [])
    ++ (if f.useChecksum then [checksumL] else [])
    ++ bwSegment bw
    ++ (get_exclusiones cfg cli).map excludeOpt

/-! ## Symlink metadata codec -/

/-- Target-portability rewrite of `registrar_enlace` (src/syncb.py lines
1298-1321): a local-root string prefix becomes the placeholder via
`str.replace(localDir, placeholder, 1)`; otherwise a `/home/`-led target has
its first two path segments replaced by the placeholder; otherwise the
target is recorded unmodified. -/
def normalizar_destino_subida (localDir destino : List Char) : List Char :=
  if localDir.isPrefixOf destino then
    replaceFirst localDir homePlaceholder destino
  else if homeDirLead.isPrefixOf destino then
    (if 3 ≤ (splitOnChar '/' destino).length then
      homePlaceholder ++ '/' :: joinChar '/' ((splitOnChar '/' destino).drop 3)
    else destino)
  else destino

/-- Python `pathlib` `Path(s).parts` for a POSIX path without `.`
components: the leading `/` becomes the first part and the remaining
non-empty components follow (pathlib drops empty components produced by
repeated or trailing slashes). -/
def pathParts (s : List Char) : List (List Char) :=
  match s with
  | '/' :: rest =>
    "/".toList :: (splitOnChar '/' rest).filter (fun c => !c.isEmpty)
  | _ => (splitOnChar '/' s).filter (fun c => !c.isEmpty)

/-- Interleave a `/` before each component (worker for `pathJoinParts`). -/
def joinSlash : List (List Char) → List Char
  | [] => []
  | c :: cs => '/' :: c ++ joinSlash cs

/-- Python `pathlib` join of a base path with a sequence of relative
components, as in `Path(base) / Path(*comps)`. -/
def pathJoinParts (base : List Char) : List (List Char) → List Char
  | [] => base
  | c :: cs => pathJoinParts (base ++ '/' :: c) cs

/-- Target-portability rewrite of `_registrar_enlace` (src/python/syncb.py
lines 887-892): a target led by the local-dir string has the placeholder
prepended to `destino.relative_to(local_dir)` — `none` models the
`ValueError` raised by `relative_to` when the string-prefix match is not
component-aligned (the record is then skipped with a warning); otherwise a
`/home/`-led target keeps `destino.parts[2:]` (only `/` and `home` are
dropped, the username part is kept) behind the placeholder; otherwise the
target is recorded unmodified. -/
def normalizar_destino_subida_py (localDir destino : List Char) :
    Option (List Char) :=
  if localDir.isPrefixOf destino then
    if (pathParts localDir).isPrefixOf (pathParts destino) then
      some (pathJoinParts homePlaceholder
        ((pathParts destino).drop (pathParts localDir).length))
    else none
  else if homeDirLead.isPrefixOf destino then
    some (pathJoinParts homePlaceholder ((pathParts destino).drop 2))
  else some destino

/-- Target normalization of `procesar_linea_enlace` (src/syncb.py lines
1386-1389) and `_procesar_linea_enlace` (src/python/syncb.py lines 958-961):
first `$USERNAME` is replaced by the invoking user's login, then — only if
the result still starts with the literal `/home/$USERNAME` — that literal is
replaced by `root` (the configured local dir in src/syncb.py, `Path.home()`
in src/python/syncb.py). -/
def normalizar_destino_bajada (root login destino : List Char) : List Char :=
  let d := pyReplaceAll usernameVar login destino
  if homePlaceholder.isPrefixOf d then replaceFirst homePlaceholder root d
  else d

/-- One filesystem entry of the recreate model. -/
inductive FsEntry where
  | absent
  | fileEntry
  | dirEntry
  | symlinkEntry (target : List Char)
deriving DecidableEq

/-- Filesystem contents: an association list from absolute paths to
entries; missing keys are `absent`. -/
def fsGet (fs : List (List Char × FsEntry)) (p : List Char) : FsEntry :=
  match fs.lookup p with
  | some e => e
  | none => .absent

/-- Update the entry at a path (newest binding wins). -/
def fsSet (fs : List (List Char × FsEntry)) (p : List Char) (e : FsEntry) :
    List (List Char × FsEntry) :=
  (p, e) :: fs

/-- Python `Path.exists()`: follows symlink chains (bounded by fuel, as the
kernel bounds them by ELOOP); a dangling symlink does not exist. -/
def existsResolve (fs : List (List Char × FsEntry)) :
    Nat → List Char → Bool
  | 0, _ => false
  | fuel + 1, p =>
    match fsGet fs p with
    | .absent => false
    | .fileEntry => true
    | .dirEntry => true
    | .symlinkEntry t => existsResolve fs fuel t

/-- Ambient data of the recreate pass of src/python/syncb.py. -/
structure RecEnv where
  localDir : List Char
  home : List Char
  user : List Char
  dryRun : Bool

/-- Recreate-pass state: filesystem plus the three symlink counters. -/
structure RecState where
  fs : List (List Char × FsEntry)
  creados : Nat
  existentes : Nat
  errores : Nat
deriving DecidableEq

/-- Final creation step of `_procesar_linea_enlace` (src/python/syncb.py
lines 975-986): in dry-run the creation is only counted; otherwise
`Path.symlink_to` creates the link, raising `FileExistsError` (counted in
`enlaces_errores`) whenever any entry — including a dangling symlink — is
already present at the path. -/
def crearEnlace (env : RecEnv) (fs : List (List Char × FsEntry))
    (st : RecState) (ruta destinoNorm : List Char) : RecState :=
  if env.dryRun then { st with fs := fs, creados := st.creados + 1 }
  else if fsGet fs ruta = .absent then
    { st with fs := fsSet fs ruta (.symlinkEntry destinoNorm),
              creados := st.creados + 1 }
  else { st with fs := fs, errores := st.errores + 1 }

/-- `_procesar_linea_enlace` (src/python/syncb.py lines 949-986): ensure
the parent directory (unless dry-run), normalize the target, then decide
between "already correct", "replace wrong symlink" and "create".  Note the
guard `ruta_completa.exists()` follows symlinks, so a dangling symlink
falls through to the creation branch. -/
def procesar_linea_enlace_py (env : RecEnv) (st : RecState)
    (rutaEnlace destino : List Char) : RecState :=
  let rutaCompleta := pathJoin env.localDir rutaEnlace
  let dirPadre := parentPath rutaCompleta
  let fs1 := if env.dryRun then st.fs
             else if fsGet st.fs dirPadre = .absent then
               fsSet st.fs dirPadre .dirEntry
             else st.fs
  let destinoNorm := normalizar_destino_bajada env.home env.user destino
  if existsResolve fs1 40 rutaCompleta then
    match fsGet fs1 rutaCompleta with
    | .symlinkEntry actual =>
      if actual = destinoNorm then
        { st with fs := fs1, existentes := st.existentes + 1 }
      else
        crearEnlace env (if env.dryRun then fs1 else fsSet fs1 rutaCompleta .absent)
          st rutaCompleta destinoNorm
    | _ => crearEnlace env fs1 st rutaCompleta destinoNorm
  else crearEnlace env fs1 st rutaCompleta destinoNorm

/-! ## Orchestrator: per-item synchronization -/

/-- Trace records of observable filesystem activity of the per-item loop:
`statE` for any existence/kind query of a path, `mkdirE` for an actual
directory creation, `rsyncE` for launching the transfer tool. -/
inductive FsEffect where
  | statE (p : List Char)
  | mkdirE (p : List Char)
  | rsyncE (origen destino : List Char)
deriving DecidableEq

/-- Ambient data of one per-item synchronization: roots, direction, dry-run
flag, the world's answers to existence and directory queries, and the
abstract outcome of the rsync subprocess. -/
structure SyncElemEnv where
  localDir : List Char
  pcloudDir : List Char
  subir : Bool
  dryRun : Bool
  existsFs : List Char → Bool
  isDirFs : List Char → Bool
  rsyncOk : Bool

/-- Source path of an item (direction-dependent root joined with the item,
with pathlib's absolute-item override). -/
def origenPath (env : SyncElemEnv) (elemento : List Char) : List Char :=
  pathJoin (if env.subir then env.localDir else env.pcloudDir) elemento

/-- Destination path of an item. -/
def destinoPath (env : SyncElemEnv) (elemento : List Char) : List Char :=
  pathJoin (if env.subir then env.pcloudDir else env.localDir) elemento

/-- `sincronizar_elemento` (src/syncb.py lines 999-1072): stat the source
(warn and fail when missing), stat it again for the directory check
(`Path(str + "/")` normalizes the appended slash away), stat the
destination parent and create it unless dry-run, then invoke rsync.
Success is the subprocess outcome. -/
def sincronizar_elemento_main (env : SyncElemEnv) (elemento : List Char) :
    Bool × List FsEffect :=
  if env.existsFs (origenPath env elemento) = false then
    (false, [.statE (origenPath env elemento)])
  else
    (env.rsyncOk,
      [.statE (origenPath env elemento), .statE (origenPath env elemento),
       .statE (parentPath (destinoPath env elemento))]
      ++ (if env.existsFs (parentPath (destinoPath env elemento)) = false
              ∧ env.dryRun = false then
            [.mkdirE (parentPath (destinoPath env elemento))]
          else [])
      ++ [.rsyncE (origenPath env elemento) (destinoPath env elemento)])

/-- `sincronizar_elemento` (src/python/syncb.py lines 756-816): stat the
source (fail when missing), stat it for the directory check, then call
`destino.parent.mkdir(parents=True, exist_ok=True)` with no dry-run guard
(a creation happens whenever the parent is absent), then invoke rsync. -/
def sincronizar_elemento_py (env : SyncElemEnv) (elemento : List Char) :
    Bool × List FsEffect :=
  if env.existsFs (origenPath env elemento) = false then
    (false, [.statE (origenPath env elemento)])
  else
    (env.rsyncOk,
      [.statE (origenPath env elemento), .statE (origenPath env elemento)]
      ++ (if env.existsFs (parentPath (destinoPath env elemento)) = false then
            [.mkdirE (parentPath (destinoPath env elemento))]
          else [])
      ++ [.rsyncE (origenPath env elemento) (destinoPath env elemento)])

/-- `validar_elemento` (src/python/syncb.py lines 698-716): reject an item
containing `..` or starting with `/` before touching the filesystem;
otherwise stat the direction-dependent source path and require existence. -/
def validar_elemento (env : SyncElemEnv) (elemento : List Char) :
    Bool × List FsEffect :=
  if hasSubstr "..".toList elemento || ['/'].isPrefixOf elemento then
    (false, [])
  else if env.existsFs (origenPath env elemento) = false then
    (false, [.statE (origenPath env elemento)])
  else
    (true, [.statE (origenPath env elemento)])

/-- One iteration of the per-item loop of `procesar_elementos`
(src/python/syncb.py lines 1229-1237): validate, then synchronize. -/
def procesar_elemento_py (env : SyncElemEnv) (elemento : List Char) :
    Bool × List FsEffect :=
  if (validar_elemento env elemento).1 = false then
    (false, (validar_elemento env elemento).2)
  else
    ((sincronizar_elemento_py env elemento).1,
     (validar_elemento env elemento).2 ++ (sincronizar_elemento_py env elemento).2)

/-- `procesar_elementos` (src/syncb.py lines 1226-1245): run
`sincronizar_elemento` on every item of the list; a failure sets the exit
code to 1 and the loop continues. -/
def procesar_elementos_main (env : SyncElemEnv) :
    List (List Char) → Nat × List FsEffect
  | [] => (0, [])
  | elemento :: els =>
    (if (sincronizar_elemento_main env elemento).1 then
       (procesar_elementos_main env els).1
     else 1,
     (sincronizar_elemento_main env elemento).2
       ++ (procesar_elementos_main env els).2)

/-! ## Auxiliary lemmas about the string utilities -/

theorem splitOnChar_ne_nil (sep : Char) (s : List Char) :
    splitOnChar sep s ≠ [] := by
  cases s with
  | nil => simp [splitOnChar]
  | cons c cs =>
    simp only [splitOnChar]
    split <;> simp

theorem joinChar_splitOnChar (sep : Char) (s : List Char) :
    joinChar sep (splitOnChar sep s) = s := by
  induction s with
  | nil => simp [splitOnChar, joinChar]
  | cons c cs ih =>
    rcases hr : splitOnChar sep cs with _ | ⟨h, t⟩
    · exact absurd hr (splitOnChar_ne_nil sep cs)
    · rw [hr] at ih
      simp only [splitOnChar, hr]
      by_cases hc : c = sep
      · subst hc
        simp only [if_pos rfl, joinChar]
        simpa using ih
      · rw [if_neg hc]
        simp only [List.headI, List.tail]
        cases t with
        | nil => simpa [joinChar] using congrArg (c :: ·) ih
        | cons t1 ts =>
          simp only [joinChar] at ih ⊢
          rw [List.cons_append, ih]

theorem splitOnChar_cons_sep (sep : Char) (xs : List Char) :
    splitOnChar sep (sep :: xs) = [] :: splitOnChar sep xs := by
  simp [splitOnChar]

theorem splitOnChar_append_sep (sep : Char) (s t : List Char) (h : sep ∉ s) :
    splitOnChar sep (s ++ sep :: t) = s :: splitOnChar sep t := by
  induction s with
  | nil => simp [splitOnChar]
  | cons c cs ih =>
    have hc : c ≠ sep := fun hh => h (hh ▸ List.mem_cons_self c cs)
    have hcs : sep ∉ cs := fun hh => h (List.mem_cons_of_mem c hh)
    simp only [List.cons_append, splitOnChar, if_neg hc, List.append_eq]
    rw [ih hcs]
    rfl

theorem isPrefixOf_append_self (l t : List Char) :
    l.isPrefixOf (l ++ t) = true := by
  induction l with
  | nil => simp [List.isPrefixOf]
  | cons a as ih => simp [List.isPrefixOf, ih]

theorem isPrefixOf_append_eq (l₁ l₂ x : List Char) (h : l₁.length ≤ l₂.length) :
    l₁.isPrefixOf (l₂ ++ x) = l₁.isPrefixOf l₂ := by
  induction l₁ generalizing l₂ with
  | nil => simp [List.isPrefixOf]
  | cons a as ih =>
    cases l₂ with
    | nil => simp at h
    | cons b bs =>
      simp only [List.cons_append, List.isPrefixOf, List.append_eq]
      rw [ih bs (by simp at h; omega)]

theorem replaceFirst_append (old new rest : List Char) :
    replaceFirst old new (old ++ rest) = new ++ rest := by
  cases old with
  | nil =>
    cases rest with
    | nil => simp [replaceFirst, List.isPrefixOf]
    | cons c cs => simp [replaceFirst, List.isPrefixOf]
  | cons o os =>
    have h := isPrefixOf_append_self (o :: os) rest
    rw [List.cons_append] at h
    simp only [List.cons_append, replaceFirst, List.append_eq, h, if_true]
    rw [← List.cons_append, List.drop_left]

theorem pathJoinParts_eq (base : List Char) (l : List (List Char)) :
    pathJoinParts base l = base ++ joinSlash l := by
  induction l generalizing base with
  | nil => simp [pathJoinParts, joinSlash]
  | cons c cs ih =>
    rw [pathJoinParts, ih, joinSlash]
    simp [List.append_assoc]

theorem joinSlash_eq_joinChar (l : List (List Char)) (h : l ≠ []) :
    joinSlash l = '/' :: joinChar '/' l := by
  induction l with
  | nil => exact absurd rfl h
  | cons c cs ih =>
    cases cs with
    | nil => simp [joinSlash, joinChar]
    | cons d ds =>
      have hjc : joinChar '/' (c :: d :: ds)
          = c ++ '/' :: joinChar '/' (d :: ds) := rfl
      rw [joinSlash, ih (by simp), hjc]
      simp

/-! ## Auxiliary lemmas about the option builder -/

theorem excludeLead_isPrefixOf_excludeOpt (p : List Char) :
    excludeLead.isPrefixOf (excludeOpt p) = true :=
  isPrefixOf_append_self excludeLead p

theorem excludeLead_not_isPrefixOf_bw (x : List Char) :
    excludeLead.isPrefixOf (bwLead ++ x) = false := by
  rw [isPrefixOf_append_eq _ _ _ (by decide)]
  decide

theorem getElem2_of_mem_map_excludeOpt {o : List Char}
    {pats : List (List Char)} (h : o ∈ pats.map excludeOpt) :
    o[2]? = some 'e' := by
  obtain ⟨p, _, rfl⟩ := List.mem_map.mp h
  unfold excludeOpt excludeLead
  rw [List.getElem?_append_left (by decide)]
  decide

theorem getElem2_of_mem_bwSegment {o : List Char} {bw : Option Nat}
    (h : o ∈ bwSegment bw) : o[2]? = some 'b' := by
  cases bw with
  | none => simp [bwSegment] at h
  | some b =>
    by_cases hb : b = 0
    · simp [bwSegment, hb] at h
    · simp [bwSegment, hb] at h
      subst h
      unfold bwLead
      rw [List.getElem?_append_left (by decide)]
      decide

theorem mem_ite_singleton {a x : List Char} {c : Prop} [Decidable c] :
    (a ∈ if c then [x] else []) ↔ c ∧ a = x := by
  by_cases h : c <;> simp [h]

theorem mem_ite_singleton_not {a x : List Char} {c : Prop} [Decidable c] :
    (a ∈ if c then [] else [x]) ↔ ¬c ∧ a = x := by
  by_cases h : c <;> simp [h]

theorem updateL_mem_iff (f : RsyncFlags) (bw : Option Nat)
    (cfg cli : List (List Char)) :
    (updateL ∈ construir_opciones_rsync f bw cfg cli) ↔ f.overwrite = false := by
  have hbw : updateL ∉ bwSegment bw :=
    fun h => absurd (getElem2_of_mem_bwSegment h) (by decide)
  have hex : updateL ∉ (get_exclusiones cfg cli).map excludeOpt :=
    fun h => absurd (getElem2_of_mem_map_excludeOpt h) (by decide)
  have h0 : updateL ∉ baseOpts := by decide
  have h1 : updateL ≠ dryRunL := by decide
  have h2 : updateL ≠ deleteDelayL := by decide
  have h3 : updateL ≠ checksumL := by decide
  unfold construir_opciones_rsync
  simp only [List.mem_append, mem_ite_singleton, mem_ite_singleton_not]
  simp [h0, h1, h2, h3, hbw, hex]

theorem dryRunL_mem_iff (f : RsyncFlags) (bw : Option Nat)
    (cfg cli : List (List Char)) :
    (dryRunL ∈ construir_opciones_rsync f bw cfg cli) ↔ f.dryRun = true := by
  have hbw : dryRunL ∉ bwSegment bw :=
    fun h => absurd (getElem2_of_mem_bwSegment h) (by decide)
  have hex : dryRunL ∉ (get_exclusiones cfg cli).map excludeOpt :=
    fun h => absurd (getElem2_of_mem_map_excludeOpt h) (by decide)
  have h0 : dryRunL ∉ baseOpts := by decide
  have h1 : dryRunL ≠ updateL := by decide
  have h2 : dryRunL ≠ deleteDelayL := by decide
  have h3 : dryRunL ≠ checksumL := by decide
  unfold construir_opciones_rsync
  simp only [List.mem_append, mem_ite_singleton, mem_ite_singleton_not]
  simp [h0, h1, h2, h3, hbw, hex]

theorem deleteDelayL_mem_iff (f : RsyncFlags) (bw : Option Nat)
    (cfg cli : List (List Char)) :
    (deleteDelayL ∈ construir_opciones_rsync f bw cfg cli) ↔ f.delete = true := by
  have hbw : deleteDelayL ∉ bwSegment bw :=
    fun h => absurd (getElem2_of_mem_bwSegment h) (by decide)
  have hex : deleteDelayL ∉ (get_exclusiones cfg cli).map excludeOpt :=
    fun h => absurd (getElem2_of_mem_map_excludeOpt h) (by decide)
  have h0 : deleteDelayL ∉ baseOpts := by decide
  have h1 : deleteDelayL ≠ updateL := by decide
  have h2 : deleteDelayL ≠ dryRunL := by decide
  have h3 : deleteDelayL ≠ checksumL := by decide
  unfold construir_opciones_rsync
  simp only [List.mem_append, mem_ite_singleton, mem_ite_singleton_not]
  simp [h0, h1, h2, h3, hbw, hex]

theorem checksumL_mem_iff (f : RsyncFlags) (bw : Option Nat)
    (cfg cli : List (List Char)) :
    (checksumL ∈ construir_opciones_rsync f bw cfg cli) ↔ f.useChecksum = true := by
  have hbw : checksumL ∉ bwSegment bw :=
    fun h => absurd (getElem2_of_mem_bwSegment h) (by decide)
  have hex : checksumL ∉ (get_exclusiones cfg cli).map excludeOpt :=
    fun h => absurd (getElem2_of_mem_map_excludeOpt h) (by decide)
  have h0 : checksumL ∉ baseOpts := by decide
  have h1 : checksumL ≠ updateL := by decide
  have h2 : checksumL ≠ dryRunL := by decide
  have h3 : checksumL ≠ deleteDelayL := by decide
  unfold construir_opciones_rsync
  simp only [List.mem_append, mem_ite_singleton, mem_ite_singleton_not]
  simp [h0, h1, h2, h3, hbw, hex]

theorem bool_eq_of_eq_false_iff {a b : Bool} (h : a = false ↔ b = false) :
    a = b := by
  cases a <;> cases b <;> simp_all

theorem bool_eq_of_eq_true_iff {a b : Bool} (h : a = true ↔ b = true) :
    a = b := by
  cases a <;> cases b <;> simp_all

theorem construir_opciones_inj (f g : RsyncFlags) (bw : Option Nat)
    (cfg cli : List (List Char))
    (heq : construir_opciones_rsync f bw cfg cli
            = construir_opciones_rsync g bw cfg cli) :
    f = g := by
  have e1 : f.overwrite = g.overwrite := by
    refine bool_eq_of_eq_false_iff ((updateL_mem_iff f bw cfg cli).symm.trans ?_)
    rw [heq]; exact updateL_mem_iff g bw cfg cli
  have e2 : f.dryRun = g.dryRun := by
    refine bool_eq_of_eq_true_iff ((dryRunL_mem_iff f bw cfg cli).symm.trans ?_)
    rw [heq]; exact dryRunL_mem_iff g bw cfg cli
  have e3 : f.delete = g.delete := by
    refine bool_eq_of_eq_true_iff ((deleteDelayL_mem_iff f bw cfg cli).symm.trans ?_)
    rw [heq]; exact deleteDelayL_mem_iff g bw cfg cli
  have e4 : f.useChecksum = g.useChecksum := by
    refine bool_eq_of_eq_true_iff ((checksumL_mem_iff f bw cfg cli).symm.trans ?_)
    rw [heq]; exact checksumL_mem_iff g bw cfg cli
  cases f
  cases g
  simp_all

theorem bwSegment_filter_exclude (bw : Option Nat) :
    (bwSegment bw).filter (fun o => excludeLead.isPrefixOf o) = [] := by
  cases bw with
  | none => rfl
  | some b =>
    by_cases h : b = 0
    · simp [bwSegment, h]
    · simp [bwSegment, h, List.filter, excludeLead_not_isPrefixOf_bw]

/-! ## Auxiliary lemmas about the orchestration loop -/

theorem sincronizar_elemento_main_stat_mem (env : SyncElemEnv)
    (elemento : List Char) :
    FsEffect.statE (origenPath env elemento)
      ∈ (sincronizar_elemento_main env elemento).2 := by
  unfold sincronizar_elemento_main
  by_cases h : env.existsFs (origenPath env elemento) = false <;> simp [h]

theorem sincronizar_elemento_main_missing_fails (env : SyncElemEnv)
    (elemento : List Char)
    (h : env.existsFs (origenPath env elemento) = false) :
    (sincronizar_elemento_main env elemento).1 = false := by
  simp [sincronizar_elemento_main, h]

theorem procesar_elementos_main_mem_trace (env : SyncElemEnv)
    (els : List (List Char)) (elemento : List Char) (h : elemento ∈ els) :
    FsEffect.statE (origenPath env elemento)
      ∈ (procesar_elementos_main env els).2 := by
  induction els with
  | nil => simp at h
  | cons e es ih =>
    rcases List.mem_cons.mp h with rfl | h2
    · exact List.mem_append_left _ (sincronizar_elemento_main_stat_mem env elemento)
    · exact List.mem_append_right _ (ih h2)

theorem procesar_elementos_main_code_one (env : SyncElemEnv)
    (els : List (List Char))
    (h : ∃ e ∈ els, (sincronizar_elemento_main env e).1 = false) :
    (procesar_elementos_main env els).1 = 1 := by
  induction els with
  | nil => simp at h
  | cons e es ih =>
    obtain ⟨x, hx, hf⟩ := h
    rcases List.mem_cons.mp hx with rfl | h2
    · simp [procesar_elementos_main, hf]
    · by_cases hb : (sincronizar_elemento_main env e).1 <;>
        simp [procesar_elementos_main, hb, ih ⟨x, h2, hf⟩]

/-! ## Claim theorems -/

/-- Claim C1 (code evidence for the divergence): for the metadata target
`/home/$USERNAME/notes.txt` recreated with local root `/srv/user42` and
login `user42`, the recreate normalization of `procesar_linea_enlace`
produces the target `/home/user42/notes.txt` — not `/srv/user42/notes.txt`
as the claim states — because `$USERNAME` is substituted by the login before
the `startswith('/home/$USERNAME')` test, leaving that rewrite branch dead. -/
theorem procesar_linea_enlace_placeholder_not_rewritten_to_root :
    normalizar_destino_bajada "/srv/user42".toList "user42".toList
        "/home/$USERNAME/notes.txt".toList = "/home/user42/notes.txt".toList
    ∧ normalizar_destino_bajada "/srv/user42".toList "user42".toList
        "/home/$USERNAME/notes.txt".toList ≠ "/srv/user42/notes.txt".toList := by
  decide

/-- Claim C2: an existing readable lock token whose age is at most the
stale threshold and whose recorded owner is alive makes `establecer_lock`
fail, surface the owner pid, and leave the token file untouched. -/
theorem establecer_lock_live_fresh_fails (env : LockEnv) (pid : Nat)
    (ts : Int) (hage : env.now - ts ≤ env.lockTimeout)
    (halive : env.alive pid = true) :
    establecer_lock env ⟨some (.parsed pid ts)⟩
      = (false, some pid, ⟨some (.parsed pid ts)⟩) := by
  have h1 : ¬ env.now - ts > env.lockTimeout := by omega
  simp [establecer_lock, h1, halive]

/-- Witness for claim C2 at pid 2, timestamp 80, clock 100, threshold 50,
with every process alive. -/
theorem establecer_lock_live_fresh_fails_witness :
    establecer_lock ⟨1, 100, 50, fun _ => true⟩ ⟨some (.parsed 2 80)⟩
      = (false, some 2, ⟨some (.parsed 2 80)⟩) :=
  establecer_lock_live_fresh_fails ⟨1, 100, 50, fun _ => true⟩ 2 80
    (by decide) rfl

/-- Claim C3 (counterexample): a lock token that `eliminar_lock` cannot
read is deleted, not left untouched — the exception branch of
`eliminar_lock` unlinks the file ("Lock eliminado (forzado)"). -/
theorem eliminar_lock_deletes_unreadable_token :
    eliminar_lock 7 ⟨some .corrupt⟩ = ⟨none⟩
    ∧ eliminar_lock 7 ⟨some .corrupt⟩ ≠ ⟨some .corrupt⟩ := by
  decide

/-- Claim C3 (amended): the src/syncb.py `eliminar_lock` deletes the token
exactly when the recorded owner pid equals the current pid or the token was
unreadable, and leaves a readable token recorded under a different pid
untouched; the src/python/syncb.py `eliminar_lock` leaves an unreadable
token untouched (its `except OSError: pass`), and deletes nothing at all
when this run did not acquire the lock. -/
theorem eliminar_lock_owner_or_unreadable (selfPid : Nat) (st : LockState) :
    ((eliminar_lock selfPid st).lockFile = none
      ↔ st.lockFile = none ∨ st.lockFile = some .corrupt
        ∨ ∃ ts, st.lockFile = some (.parsed selfPid ts))
    ∧ (∀ pid ts, pid ≠ selfPid →
        eliminar_lock selfPid ⟨some (.parsed pid ts)⟩
          = ⟨some (.parsed pid ts)⟩)
    ∧ (∀ acq : Bool,
        eliminar_lock_py selfPid ⟨some .corrupt, acq⟩ = ⟨some .corrupt, acq⟩)
    ∧ (∀ stp : PyLockState, stp.lockAcquired = false →
        eliminar_lock_py selfPid stp = stp) := by
  refine ⟨?_, ?_, ?_, ?_⟩
  · obtain ⟨lf⟩ := st
    cases lf with
    | none => simp [eliminar_lock]
    | some c =>
      cases c with
      | corrupt => simp [eliminar_lock]
      | parsed pid ts =>
        by_cases h : pid = selfPid
        · subst h
          simp [eliminar_lock]
        · simp [eliminar_lock, h]
  · intro pid ts h
    simp [eliminar_lock, h]
  · intro acq
    cases acq <;> rfl
  · intro stp h
    simp [eliminar_lock_py, h]

/-- Witness for claim C3's amended statement: releasing as pid 5 leaves a
token owned by pid 9 untouched (src/syncb.py), and the src/python release
leaves an unreadable token untouched even for the acquiring run. -/
theorem eliminar_lock_owner_or_unreadable_witness :
    eliminar_lock 5 ⟨some (.parsed 9 0)⟩ = ⟨some (.parsed 9 0)⟩
    ∧ eliminar_lock_py 5 ⟨some .corrupt, true⟩ = ⟨some .corrupt, true⟩ :=
  ⟨(eliminar_lock_owner_or_unreadable 5 ⟨some (.parsed 9 0)⟩).2.1 9 0
      (by decide),
   (eliminar_lock_owner_or_unreadable 5 ⟨some (.parsed 9 0)⟩).2.2.1 true⟩

/-- Claim C4 (counterexample): the generic home rule of the cited
`_registrar_enlace` (src/python/syncb.py lines 890-892) keeps the username
segment — `parts[2:]` drops only `/` and `home` — so the target
`/home/bob/notes.txt` is recorded as `/home/$USERNAME/bob/notes.txt`, not
`/home/$USERNAME/notes.txt` as the claimed rule 2 states. -/
theorem registrar_enlace_py_keeps_username_segment :
    normalizar_destino_subida_py "/h/u".toList "/home/bob/notes.txt".toList
      = some "/home/$USERNAME/bob/notes.txt".toList
    ∧ normalizar_destino_subida_py "/h/u".toList "/home/bob/notes.txt".toList
      ≠ some "/home/$USERNAME/notes.txt".toList := by
  decide

/-- Claim C4 (amended): the capture rewrite of src/syncb.py's
`registrar_enlace` is exactly the claimed three-rule function of the raw
target string — a target led by the local root has that string prefix
replaced by the placeholder; otherwise a target of shape
`/home/<anyuser>/rest` has its first two path segments replaced by the
placeholder; any other target is recorded unmodified.  The src/python
iteration's `_registrar_enlace` differs in the generic home rule: it drops
only the `/` and `home` parts and keeps the username segment behind the
placeholder. -/
theorem registrar_enlace_rewrite_by_iteration :
    (∀ localDir rest : List Char,
        normalizar_destino_subida localDir (localDir ++ rest)
          = homePlaceholder ++ rest)
    ∧ (∀ localDir usr rest : List Char,
        localDir.isPrefixOf (homeDirLead ++ usr ++ '/' :: rest) = false →
        '/' ∉ usr →
        normalizar_destino_subida localDir (homeDirLead ++ usr ++ '/' :: rest)
          = homePlaceholder ++ '/' :: rest)
    ∧ (∀ localDir destino : List Char,
        localDir.isPrefixOf destino = false →
        homeDirLead.isPrefixOf destino = false →
        normalizar_destino_subida localDir destino = destino)
    ∧ (∀ localDir usr rest : List Char,
        localDir.isPrefixOf (homeDirLead ++ usr ++ '/' :: rest) = false →
        '/' ∉ usr → usr ≠ [] → [] ∉ splitOnChar '/' rest →
        normalizar_destino_subida_py localDir
            (homeDirLead ++ usr ++ '/' :: rest)
          = some (homePlaceholder ++ '/' :: (usr ++ '/' :: rest))) := by
  refine ⟨?_, ?_, ?_, ?_⟩
  · intro localDir rest
    unfold normalizar_destino_subida
    rw [isPrefixOf_append_self]
    simp [replaceFirst_append]
  · intro localDir usr rest h1 h2
    have hd : homeDirLead ++ usr ++ '/' :: rest
        = '/' :: ("home".toList ++ '/' :: (usr ++ '/' :: rest)) := rfl
    have hsplit : splitOnChar '/' (homeDirLead ++ usr ++ '/' :: rest)
        = [] :: "home".toList :: usr :: splitOnChar '/' rest := by
      rw [hd, splitOnChar_cons_sep,
          splitOnChar_append_sep '/' "home".toList _ (by decide),
          splitOnChar_append_sep '/' usr _ h2]
    have hpre : homeDirLead.isPrefixOf (homeDirLead ++ usr ++ '/' :: rest)
        = true := by
      rw [List.append_assoc]
      exact isPrefixOf_append_self homeDirLead _
    unfold normalizar_destino_subida
    rw [h1, hpre, hsplit]
    simp [joinChar_splitOnChar]
  · intro localDir destino h1 h2
    unfold normalizar_destino_subida
    rw [h1, h2]
    simp
  · intro localDir usr rest h1 h2 h3 h4
    have hd : homeDirLead ++ usr ++ '/' :: rest
        = '/' :: ("home".toList ++ '/' :: (usr ++ '/' :: rest)) := rfl
    have hpre : homeDirLead.isPrefixOf (homeDirLead ++ usr ++ '/' :: rest)
        = true := by
      rw [List.append_assoc]
      exact isPrefixOf_append_self homeDirLead _
    have hsplit : splitOnChar '/' ("home".toList ++ '/' :: (usr ++ '/' :: rest))
        = "home".toList :: usr :: splitOnChar '/' rest := by
      rw [splitOnChar_append_sep '/' "home".toList _ (by decide),
          splitOnChar_append_sep '/' usr _ h2]
    have hne : ∀ a : List Char, a ≠ [] → (!a.isEmpty) = true := by
      intro a ha
      cases a with
      | nil => exact absurd rfl ha
      | cons x xs => rfl
    have hfilter : ("home".toList :: usr :: splitOnChar '/' rest).filter
        (fun c => !c.isEmpty)
        = "home".toList :: usr :: splitOnChar '/' rest := by
      apply List.filter_eq_self.mpr
      intro a ha
      rcases List.mem_cons.mp ha with rfl | ha2
      · decide
      rcases List.mem_cons.mp ha2 with rfl | ha3
      · exact hne _ h3
      · exact hne _ (fun hnil => h4 (hnil ▸ ha3))
    have hparts : pathParts (homeDirLead ++ usr ++ '/' :: rest)
        = "/".toList :: "home".toList :: usr :: splitOnChar '/' rest := by
      rw [hd]
      simp only [pathParts]
      rw [hsplit, hfilter]
    have hjoin : pathJoinParts homePlaceholder (usr :: splitOnChar '/' rest)
        = homePlaceholder ++ '/' :: (usr ++ '/' :: rest) := by
      rw [pathJoinParts_eq, joinSlash_eq_joinChar _ (by simp)]
      rcases hsr : splitOnChar '/' rest with _ | ⟨w, ws⟩
      · exact absurd hsr (splitOnChar_ne_nil '/' rest)
      · have hjc : joinChar '/' (usr :: w :: ws)
            = usr ++ '/' :: joinChar '/' (w :: ws) := rfl
        rw [hjc, ← hsr, joinChar_splitOnChar]
    have hdrop : ("/".toList :: "home".toList :: usr
        :: splitOnChar '/' rest).drop 2 = usr :: splitOnChar '/' rest := rfl
    unfold normalizar_destino_subida_py
    rw [h1, hpre, if_neg (by decide), if_pos (by decide), hparts, hdrop, hjoin]

/-- Witness for claim C4: with local root `/srv/x` the target
`/home/bob/notes.txt` is rewritten by src/syncb.py's generic home rule to
`/home/$USERNAME/notes.txt`, and by src/python/syncb.py's to
`/home/$USERNAME/bob/notes.txt`. -/
theorem registrar_enlace_rewrite_by_iteration_witness :
    normalizar_destino_subida "/srv/x".toList
        (homeDirLead ++ "bob".toList ++ '/' :: "notes.txt".toList)
      = homePlaceholder ++ '/' :: "notes.txt".toList
    ∧ normalizar_destino_subida_py "/srv/x".toList
        (homeDirLead ++ "bob".toList ++ '/' :: "notes.txt".toList)
      = some (homePlaceholder ++ '/' :: ("bob".toList ++ '/' :: "notes.txt".toList)) :=
  ⟨registrar_enlace_rewrite_by_iteration.2.1 "/srv/x".toList "bob".toList
      "notes.txt".toList (by decide) (by decide),
   registrar_enlace_rewrite_by_iteration.2.2.2 "/srv/x".toList "bob".toList
      "notes.txt".toList (by decide) (by decide) (by decide) (by decide)⟩

/-- Claim C5 (counterexample): the src/syncb.py per-item routine performs
no traversal validation; for the absolute item `/etc` it stats the resolved
source path (which pathlib resolves to `/etc` itself) and even launches the
transfer, contradicting rejection before any filesystem access. -/
theorem sincronizar_elemento_main_stats_absolute_item :
    (let env : SyncElemEnv :=
      ⟨"/h/u".toList, "/pc".toList, true, false,
       fun _ => true, fun _ => true, true⟩;
     FsEffect.statE "/etc".toList
        ∈ (sincronizar_elemento_main env "/etc".toList).2
     ∧ FsEffect.rsyncE "/etc".toList "/etc".toList
        ∈ (sincronizar_elemento_main env "/etc".toList).2) := by
  decide

/-- Claim C5 (amended): in the src/python/syncb.py iteration, an item
containing `..` or starting with `/` is rejected by `validar_elemento`
before any filesystem access, and the per-item loop performs no effect at
all for it. -/
theorem validar_elemento_rejects_traversal (env : SyncElemEnv)
    (elemento : List Char)
    (h : hasSubstr "..".toList elemento = true
        ∨ ['/'].isPrefixOf elemento = true) :
    validar_elemento env elemento = (false, [])
    ∧ procesar_elemento_py env elemento = (false, []) := by
  have hb : (hasSubstr "..".toList elemento
      || ['/'].isPrefixOf elemento) = true := by
    rcases h with h | h
    · rw [h, Bool.true_or]
    · rw [h, Bool.or_true]
  constructor
  · unfold validar_elemento
    rw [hb]
    simp
  · unfold procesar_elemento_py validar_elemento
    rw [hb]
    simp

/-- Witness for claim C5's amended statement at the item `../x`. -/
theorem validar_elemento_rejects_traversal_witness :
    validar_elemento
        ⟨"/h/u".toList, "/pc".toList, true, false,
         fun _ => true, fun _ => true, true⟩ "../x".toList = (false, [])
    ∧ procesar_elemento_py
        ⟨"/h/u".toList, "/pc".toList, true, false,
         fun _ => true, fun _ => true, true⟩ "../x".toList = (false, []) :=
  validar_elemento_rejects_traversal _ "../x".toList (Or.inl (by decide))

/-- Claim C6 (code evidence for the divergence): for a record whose
normalized target does not exist (metadata line `docs/link TAB /tmp/gone`),
the first recreate run of `_procesar_linea_enlace` creates the dangling
symlink, and the second run — `exists()` follows the dangling link and
returns false — attempts re-creation, fails with `FileExistsError`, and
counts an error instead of classifying the record as already correct (the
filesystem itself is left unchanged). -/
theorem recrear_dangling_second_run_reports_error :
    (let env : RecEnv := ⟨"/h/u".toList, "/h/u".toList, "u".toList, false⟩;
     let st1 := procesar_linea_enlace_py env ⟨[], 0, 0, 0⟩
        "docs/link".toList "/tmp/gone".toList;
     let st2 := procesar_linea_enlace_py env st1
        "docs/link".toList "/tmp/gone".toList;
     st1.creados = 1 ∧ st1.existentes = 0 ∧ st1.errores = 0
       ∧ st2.fs = st1.fs ∧ st2.existentes = 0 ∧ st2.errores = 1) := by
  decide

/-- Claim C7: `construir_opciones_rsync` yields distinct option lists
whenever any of the four boolean flags differs (with bandwidth limit and
patterns held fixed), and its `--exclude=` entries are exactly one per
configured pattern, configuration patterns before CLI patterns, in stable
order. -/
theorem construir_opciones_distinct_and_excludes :
    (∀ (f g : RsyncFlags) (bw : Option Nat) (cfg cli : List (List Char)),
        f ≠ g →
        construir_opciones_rsync f bw cfg cli
          ≠ construir_opciones_rsync g bw cfg cli)
    ∧ (∀ (f : RsyncFlags) (bw : Option Nat) (cfg cli : List (List Char)),
        (construir_opciones_rsync f bw cfg cli).filter
            (fun o => excludeLead.isPrefixOf o)
          = (get_exclusiones cfg cli).map excludeOpt) := by
  constructor
  · intro f g bw cfg cli hne heq
    exact hne (construir_opciones_inj f g bw cfg cli heq)
  · intro f bw cfg cli
    unfold construir_opciones_rsync
    simp only [List.filter_append]
    have h0 : baseOpts.filter (fun o => excludeLead.isPrefixOf o) = [] := by
      decide
    have h1 : ∀ b : Bool,
        (if b = true then ([] : List (List Char)) else [updateL]).filter
          (fun o => excludeLead.isPrefixOf o) = [] := by decide
    have h2 : ∀ b : Bool,
        (if b = true then [dryRunL] else ([] : List (List Char))).filter
          (fun o => excludeLead.isPrefixOf o) = [] := by decide
    have h3 : ∀ b : Bool,
        (if b = true then [deleteDelayL] else ([] : List (List Char))).filter
          (fun o => excludeLead.isPrefixOf o) = [] := by decide
    have h4 : ∀ b : Bool,
        (if b = true then [checksumL] else ([] : List (List Char))).filter
          (fun o => excludeLead.isPrefixOf o) = [] := by decide
    have hex : ((get_exclusiones cfg cli).map excludeOpt).filter
        (fun o => excludeLead.isPrefixOf o)
        = (get_exclusiones cfg cli).map excludeOpt := by
      apply List.filter_eq_self.mpr
      intro o ho
      obtain ⟨p, _, rfl⟩ := List.mem_map.mp ho
      exact excludeLead_isPrefixOf_excludeOpt p
    rw [h0, h1 f.overwrite, h2 f.dryRun, h3 f.delete, h4 f.useChecksum,
        bwSegment_filter_exclude, hex]
    simp

/-- Witness for claim C7: toggling the dry-run flag alone changes the
option list. -/
theorem construir_opciones_distinct_and_excludes_witness :
    construir_opciones_rsync ⟨false, false, false, false⟩ none [] []
      ≠ construir_opciones_rsync ⟨false, true, false, false⟩ none [] [] :=
  construir_opciones_distinct_and_excludes.1 ⟨false, false, false, false⟩
    ⟨false, true, false, false⟩ none [] [] (by decide)

/-- Claim C8: whenever some item of the list is missing at the source, the
src/syncb.py per-item loop still attempts every item of the list (its
source path is statted), and the loop's exit code is 1. -/
theorem procesar_elementos_continue_on_error (env : SyncElemEnv)
    (els : List (List Char))
    (hmiss : ∃ e ∈ els, env.existsFs (origenPath env e) = false) :
    (procesar_elementos_main env els).1 = 1
    ∧ ∀ e ∈ els, FsEffect.statE (origenPath env e)
        ∈ (procesar_elementos_main env els).2 := by
  obtain ⟨x, hx, hf⟩ := hmiss
  exact ⟨procesar_elementos_main_code_one env els
          ⟨x, hx, sincronizar_elemento_main_missing_fails env x hf⟩,
         fun e he => procesar_elementos_main_mem_trace env els e he⟩

/-- Witness for claim C8: a two-item list in a world where nothing exists
yields exit code 1 and both items statted. -/
theorem procesar_elementos_continue_on_error_witness :
    (procesar_elementos_main
        ⟨"/h/u".toList, "/pc".toList, true, false,
         fun _ => false, fun _ => false, true⟩
        ["a".toList, "b".toList]).1 = 1
    ∧ ∀ e ∈ ["a".toList, "b".toList],
        FsEffect.statE (origenPath
          ⟨"/h/u".toList, "/pc".toList, true, false,
           fun _ => false, fun _ => false, true⟩ e)
          ∈ (procesar_elementos_main
              ⟨"/h/u".toList, "/pc".toList, true, false,
               fun _ => false, fun _ => false, true⟩
              ["a".toList, "b".toList]).2 :=
  procesar_elementos_continue_on_error _ _ ⟨"a".toList, by decide, rfl⟩

/-- Claim C9 (code evidence for the divergence): in dry-run mode the
src/python/syncb.py per-item routine still creates the destination parent
directory — downloading `docs/f.txt` with an absent local parent
`/h/u/docs` performs a real `mkdir` although `--dry-run` was requested. -/
theorem sincronizar_elemento_py_dry_run_creates_directory :
    (let env : SyncElemEnv :=
      ⟨"/h/u".toList, "/pc".toList, false, true,
       fun p => p == "/pc/docs/f.txt".toList, fun _ => false, true⟩;
     FsEffect.mkdirE "/h/u/docs".toList
        ∈ (sincronizar_elemento_py env "docs/f.txt".toList).2) := by
  decide

/-- Claim C10: every option list built by `construir_opciones_rsync` for
the main per-item transfer contains `--no-links`, for all flag
combinations. -/
theorem construir_opciones_rsync_contains_no_links (f : RsyncFlags)
    (bw : Option Nat) (cfg cli : List (List Char)) :
    "--no-links".toList ∈ construir_opciones_rsync f bw cfg cli := by
  unfold construir_opciones_rsync
  refine List.mem_append_left _ ?_
  refine List.mem_append_left _ ?_
  refine List.mem_append_left _ ?_
  refine List.mem_append_left _ ?_
  refine List.mem_append_left _ ?_
  refine List.mem_append_left _ ?_
  decide

end Syncb
